import Mathlib

/-!
Shallow embedding of `src/main/system_info.cc` (device-identity provisioning
and CPU-usage sampling) together with theorems settling the specification
claims about it.

Strings are modelled as `List Char` (C byte strings may carry embedded and
trailing NUL bytes, which matter to this code).  The NVS key-value store is
modelled as the content visible to this module (the blob stored under the
`device`/`udid` pair and the `wifi` namespace entries) plus one boolean
failure oracle per external store operation the code performs, so that
store read/write failures can be injected exactly where the C library
calls can fail.
-/

/-- The NUL character, the C string terminator and NVS trailing padding. -/
def nulChar : Char := Char.ofNat 0

/-- The six bytes of a station MAC address (`uint8_t mac[6]` in the source).
Each field is a byte value; the code only ever stores `uint8_t` values
(hardware reads and explicitly masked random bytes) in it. -/
structure Mac where
  b0 : Nat
  b1 : Nat
  b2 : Nat
  b3 : Nat
  b4 : Nat
  b5 : Nat
deriving DecidableEq, Repr

/-- One lowercase hex digit, `n < 16` in every use (snprintf `%x` digits). -/
def hexDigit (n : Nat) : Char :=
  if n < 10 then Char.ofNat (48 + n) else Char.ofNat (87 + n)

/-- Two lowercase hex digits of a byte, as printed by `%02x` for a
`uint8_t` value (always exactly two digits since the value is < 256). -/
def hexByte (n : Nat) : List Char :=
  [hexDigit (n / 16 % 16), hexDigit (n % 16)]

/-- `FormatMac` from the source: `"%02x:%02x:%02x:%02x:%02x:%02x"`. -/
def FormatMac (m : Mac) : List Char :=
  hexByte m.b0 ++ ':' :: hexByte m.b1 ++ ':' :: hexByte m.b2 ++
  ':' :: hexByte m.b3 ++ ':' :: hexByte m.b4 ++ ':' :: hexByte m.b5

/-- The while loop of `ReadUdidFromNvs`: pop trailing NUL characters. -/
def stripTrailingNul (v : List Char) : List Char :=
  (v.reverse.dropWhile fun c => c == nulChar).reverse

/-- `c_str()` semantics used by `nvs_set_str`: the bytes up to the first
embedded NUL, plus the terminating NUL that NVS stores with the string. -/
def cString (v : List Char) : List Char :=
  (v.takeWhile fun c => !(c == nulChar)) ++ [nulChar]

/-- The NVS store as seen by this module: the blob stored under the
`device`/`udid` key (if any), the `wifi` namespace entries, and a success
oracle for each distinct external store operation the code performs. -/
structure Nvs where
  udid : Option (List Char)
  wifi : List (String × List Char)
  openUdidRoOk : Bool
  openUdidRwOk : Bool
  openWifiOk : Bool
  getUdidLenOk : Bool
  getUdidDataOk : Bool
  getWifiOk : Bool
  setUdidOk : Bool
deriving DecidableEq, Repr

/-- Association lookup on the wifi namespace entries. -/
def lookupKey (key : String) : List (String × List Char) → Option (List Char)
  | [] => none
  | (k, v) :: rest => if k = key then some v else lookupKey key rest

/-- `ReadUdidFromNvs` from the source.  `some v` models `return true` with
`*udid = v`; `none` models `return false`.  The first `nvs_get_str` call
(size query) fails when the key is absent, when the oracle says so, or
reports length `0`; the second call (data read) fails when its oracle says
so; otherwise the blob, with trailing NULs stripped, is returned. -/
def ReadUdidFromNvs (s : Nvs) : Option (List Char) :=
  if s.openUdidRoOk then
    match s.udid with
    | none => none
    | some v =>
      if s.getUdidLenOk ∧ v.length ≠ 0 then
        if s.getUdidDataOk then some (stripTrailingNul v) else none
      else none
  else none

/-- `WriteUdidToNvs` from the source.  Returns the updated store and
whether a persist (successful `nvs_set_str` + `nvs_commit`) happened.
Open or set failure leaves the store untouched (the C function returns
`void` and ignores failures). -/
def WriteUdidToNvs (s : Nvs) (udid : List Char) : Nvs × Bool :=
  if s.openUdidRwOk then
    if s.setUdidOk then ({ s with udid := some (cString udid) }, true)
    else (s, false)
  else (s, false)

/-- The ssid key for slot `i`: `"ssid"` for `i = 0`, `"ssid" + i` after
(`ssid_key += std::to_string(i)` when `i > 0`). -/
def ssidKey (i : Nat) : String :=
  if i > 0 then "ssid" ++ toString i else "ssid"

/-- Result of the `nvs_get_str` size query on wifi slot `i`: the stored
length when the key is present and the get oracle allows it. -/
def wifiSlotLen (s : Nvs) (i : Nat) : Option Nat :=
  if s.getWifiOk then (lookupKey (ssidKey i) s.wifi).map List.length else none

/-- Content-level predicate: wifi slot `i` holds a non-empty value. -/
def slotFilled (s : Nvs) (i : Nat) : Bool :=
  match lookupKey (ssidKey i) s.wifi with
  | some v => !v.isEmpty
  | none => false

/-- `HasWifiConfigInNvs` from the source: open the `wifi` namespace and
scan slots `0..9` (`kMaxWifiSsidCount = 10`) for a key whose size query
succeeds with positive length. -/
def HasWifiConfigInNvs (s : Nvs) : Bool :=
  s.openWifiOk &&
    (List.range 10).any fun i =>
      match wifiSlotLen s i with
      | some l => decide (0 < l)
      | none => false

/-- The randomized-candidate mutation in `InitializeUdid`: replace the
first three MAC bytes with the low, middle and high-middle bytes of the
random `uint32` `r` (`r & 0xFF`, `(r >> 8) & 0xFF`, `(r >> 16) & 0xFF`). -/
def randomize (mac : Mac) (r : Nat) : Mac :=
  { mac with b0 := r % 256, b1 := r / 256 % 256, b2 := r / 65536 % 256 }

/-- `SystemInfo::InitializeUdid` from the source, with the hardware MAC
and the `esp_random()` value as inputs.  Returns the updated store and the
number of persists performed.  The trailing `ReadUdidFromNvs` calls of the
source only feed log lines and do not change the store. -/
def InitializeUdid (s : Nvs) (mac : Mac) (r : Nat) : Nvs × Nat :=
  match ReadUdidFromNvs s with
  | some _ => (s, 0)
  | none =>
    if HasWifiConfigInNvs s then
      let w := WriteUdidToNvs s (FormatMac mac)
      (w.1, if w.2 then 1 else 0)
    else
      let w := WriteUdidToNvs s (FormatMac (randomize mac r))
      (w.1, if w.2 then 1 else 0)

/-- `SystemInfo::GetMacAddress` from the source (the public
`GetDeviceIdentifier`).  Returns the string handed to the caller, the
updated store, and the number of persists performed during the call.
Both `GetStaMac` reads within one call yield the same hardware MAC. -/
def GetMacAddress (s : Nvs) (mac : Mac) (r : Nat) : List Char × Nvs × Nat :=
  match ReadUdidFromNvs s with
  | some udid => (udid, s, 0)
  | none =>
    let p := InitializeUdid s mac r
    match ReadUdidFromNvs p.1 with
    | some udid => (udid, p.1, p.2)
    | none => (FormatMac mac, p.1, p.2)

/-- All store operations succeed (a store that succeeds on all
operations, in the words of the spec). -/
def allOk (s : Nvs) : Prop :=
  s.openUdidRoOk = true ∧ s.openUdidRwOk = true ∧ s.openWifiOk = true ∧
  s.getUdidLenOk = true ∧ s.getUdidDataOk = true ∧ s.getWifiOk = true ∧
  s.setUdidOk = true

instance (s : Nvs) : Decidable (allOk s) := by
  unfold allOk
  infer_instance

/-- Repair every operation oracle of a store while keeping its contents:
the "store now working" situation of the fallback claims. -/
def setFlagsOk (s : Nvs) : Nvs :=
  { s with openUdidRoOk := true, openUdidRwOk := true, openWifiOk := true,
           getUdidLenOk := true, getUdidDataOk := true, getWifiOk := true,
           setUdidOk := true }

/-! ## CPU usage sampler (`SystemInfo::PrintTaskCpuUsage`) -/

/-- `uint32` truncating multiplication (`task_elapsed_time * 100UL` and
`total_elapsed_time * CONFIG_FREERTOS_NUMBER_OF_CORES` are 32-bit). -/
def mul32 (a b : Nat) : Nat := a * b % 4294967296

/-- `uint32` wraparound subtraction `a - b`. -/
def sub32 (a b : Nat) : Nat :=
  (a % 4294967296 + (4294967296 - b % 4294967296)) % 4294967296

/-- One `TaskStatus_t` entry as captured by `uxTaskGetSystemState`:
opaque task handle, task name, cumulative run-time counter. -/
structure TaskStat where
  xHandle : Nat
  pcTaskName : String
  ulRunTimeCounter : Nat
deriving DecidableEq, Repr

/-- The `esp_err_t` values `PrintTaskCpuUsage` can return. -/
inductive EspErr where
  | ok
  | noMem
  | invalidSize
  | invalidState
deriving DecidableEq, Repr

/-- One line printed by the sampler: a matched task with its run-time
delta and percentage, or a task tagged deleted/created. -/
inductive TaskRecord where
  | matched (name : String) (runTime : Nat) (percentage : Nat)
  | deleted (name : String)
  | created (name : String)
deriving DecidableEq, Repr

def TaskRecord.isMatched : TaskRecord → Bool
  | .matched _ _ _ => true
  | _ => false

def TaskRecord.isDeleted : TaskRecord → Bool
  | .deleted _ => true
  | _ => false

def TaskRecord.isCreated : TaskRecord → Bool
  | .created _ => true
  | _ => false

/-- An array slot during the matching phase: the current handle value
(`none` models the `NULL` written to mark a consumed entry) together with
the captured task data, which marking does not erase. -/
abbrev Slot := Option Nat × TaskStat

/-- The inner `j` loop: scan the end array for the first slot whose
current handle equals `h`; on a hit return that slot's task data and the
end array with the hit slot's handle overwritten by `NULL`. -/
def consume (h : Option Nat) : List Slot → Option (TaskStat × List Slot)
  | [] => none
  | e :: es =>
    if e.1 = h then some (e.2, (none, e.2) :: es)
    else
      match consume h es with
      | some (t, es2) => some (t, e :: es2)
      | none => none

/-- The outer `i` loop: process each start slot in order, consuming at
most one end slot per start slot; emit one matched record per hit
(run-time delta and truncated percentage over `divisor`) and mark the
matched start slot's handle `NULL`.  Returns the emitted records and the
final start and end arrays. -/
def matchTasks (divisor : Nat) : List Slot → List Slot → List TaskRecord × List Slot × List Slot
  | [], es => ([], [], es)
  | s :: ss, es =>
    match consume s.1 es with
    | some (e, es2) =>
      let te := sub32 e.ulRunTimeCounter s.2.ulRunTimeCounter
      let rest := matchTasks divisor ss es2
      (TaskRecord.matched s.2.pcTaskName te (mul32 te 100 / divisor) :: rest.1,
       (none, s.2) :: rest.2.1, rest.2.2)
    | none =>
      let rest := matchTasks divisor ss es
      (rest.1, s :: rest.2.1, rest.2.2)

/-- `SystemInfo::PrintTaskCpuUsage` from the source.  The external world
enters through the allocation oracles (`malloc` of each snapshot buffer),
the two snapshots returned by `uxTaskGetSystemState` (an empty snapshot
models the count-`0` failure return) with their global run-time counter
readings, and the configured core count.  Returns the `esp_err_t` result
and the records printed. -/
def PrintTaskCpuUsage (allocStartOk : Bool) (startSnap : List TaskStat)
    (startRunTime : Nat) (allocEndOk : Bool) (endSnap : List TaskStat)
    (endRunTime : Nat) (cores : Nat) : EspErr × List TaskRecord :=
  if allocStartOk = false then (.noMem, [])
  else if startSnap = [] then (.invalidSize, [])
  else if allocEndOk = false then (.noMem, [])
  else if endSnap = [] then (.invalidSize, [])
  else if sub32 endRunTime startRunTime = 0 then (.invalidState, [])
  else
    let res := matchTasks (mul32 (sub32 endRunTime startRunTime) cores)
      (startSnap.map fun t => (some t.xHandle, t))
      (endSnap.map fun t => (some t.xHandle, t))
    (.ok,
      res.1 ++
      ((res.2.1.filter fun p => p.1.isSome).map fun p => .deleted p.2.pcTaskName) ++
      ((res.2.2.filter fun p => p.1.isSome).map fun p => .created p.2.pcTaskName))

/-! ## Helper lemmas: characters and NUL stripping -/

theorem hexDigit_ne_nul (n : Nat) (h : n < 16) : hexDigit n ≠ nulChar := by
  revert n
  decide

theorem hexDigit_mod_ne_nul (n : Nat) : hexDigit (n % 16) ≠ nulChar :=
  hexDigit_ne_nul _ (Nat.mod_lt _ (by decide))

theorem mem_formatMac_ne_nul (m : Mac) : ∀ c ∈ FormatMac m, c ≠ nulChar := by
  intro c hc
  simp only [FormatMac, hexByte, List.mem_append, List.mem_cons, List.not_mem_nil,
    or_false, or_assoc] at hc
  rcases hc with h | h | h | h | h | h | h | h | h | h | h | h | h | h | h | h | h <;>
    subst h <;> first | decide | exact hexDigit_mod_ne_nul _

theorem formatMac_ne_nil (m : Mac) : FormatMac m ≠ [] := by
  simp [FormatMac, hexByte]

theorem takeWhile_no_nul (v : List Char) (h : ∀ c ∈ v, c ≠ nulChar) :
    (v.takeWhile fun c => !(c == nulChar)) = v := by
  induction v with
  | nil => rfl
  | cons a t ih =>
    have ha : a ≠ nulChar := h a (by simp)
    simp only [List.takeWhile_cons]
    simp [ha, ih fun c hc => h c (by simp [hc])]

theorem dropWhile_no_nul (v : List Char) (h : ∀ c ∈ v, c ≠ nulChar) :
    (v.dropWhile fun c => c == nulChar) = v := by
  cases v with
  | nil => rfl
  | cons a t =>
    have ha : a ≠ nulChar := h a (by simp)
    simp [List.dropWhile_cons, ha]

theorem strip_cString (v : List Char) (h : ∀ c ∈ v, c ≠ nulChar) :
    stripTrailingNul (cString v) = v := by
  unfold stripTrailingNul cString
  rw [takeWhile_no_nul v h, List.reverse_append]
  have h2 : ([nulChar].reverse ++ v.reverse).dropWhile (fun c => c == nulChar) =
      v.reverse.dropWhile (fun c => c == nulChar) := by
    simp [List.dropWhile_cons]
  rw [h2, dropWhile_no_nul _ fun c hc => h c (List.mem_reverse.mp hc)]
  simp

theorem cString_length_ne (v : List Char) : (cString v).length ≠ 0 := by
  simp [cString]

/-! ## Helper lemmas: store operations -/

theorem readUdid_of_udid_none (s : Nvs) (h : s.udid = none) :
    ReadUdidFromNvs s = none := by
  unfold ReadUdidFromNvs
  rw [h]
  split <;> rfl

theorem readUdid_some_store (s : Nvs) (w : List Char)
    (hro : s.openUdidRoOk = true) (hlen : s.getUdidLenOk = true)
    (hdata : s.getUdidDataOk = true) (hu : s.udid = some w) (hw : w.length ≠ 0) :
    ReadUdidFromNvs s = some (stripTrailingNul w) := by
  unfold ReadUdidFromNvs
  rw [hro, hu]
  simp [hlen, hdata, hw]

theorem readUdid_cases (s : Nvs) (u : List Char) (h : ReadUdidFromNvs s = some u) :
    ∃ w, s.udid = some w ∧ u = stripTrailingNul w := by
  unfold ReadUdidFromNvs at h
  by_cases hro : s.openUdidRoOk = true
  · rw [if_pos hro] at h
    cases hu : s.udid with
    | none => simp only [hu] at h; exact absurd h (by simp)
    | some w =>
      simp only [hu] at h
      by_cases h1 : s.getUdidLenOk = true ∧ w.length ≠ 0
      · rw [if_pos h1] at h
        by_cases h2 : s.getUdidDataOk = true
        · rw [if_pos h2] at h
          exact ⟨w, rfl, (Option.some.inj h).symm⟩
        · rw [if_neg h2] at h; exact absurd h (by simp)
      · rw [if_neg h1] at h; exact absurd h (by simp)
  · rw [if_neg hro] at h; exact absurd h (by simp)

theorem writeUdid_ok (s : Nvs) (v : List Char)
    (hrw : s.openUdidRwOk = true) (hset : s.setUdidOk = true) :
    WriteUdidToNvs s v = ({ s with udid := some (cString v) }, true) := by
  unfold WriteUdidToNvs
  rw [hrw, hset]
  simp

theorem writeUdid_fail (s : Nvs) (v : List Char)
    (h : s.openUdidRwOk = false ∨ s.setUdidOk = false) :
    WriteUdidToNvs s v = (s, false) := by
  unfold WriteUdidToNvs
  rcases h with h | h
  · rw [h]; simp
  · rw [h]
    split <;> simp

theorem writeUdid_store_cases (s : Nvs) (v : List Char) :
    (WriteUdidToNvs s v).1 = s ∨
      (WriteUdidToNvs s v).1 = { s with udid := some (cString v) } := by
  unfold WriteUdidToNvs
  split
  · split
    · right; rfl
    · left; rfl
  · left; rfl

theorem wifiPred_eq (s : Nvs) (i : Nat) :
    (match wifiSlotLen s i with
      | some l => decide (0 < l)
      | none => false) = (s.getWifiOk && slotFilled s i) := by
  unfold wifiSlotLen slotFilled
  cases hg : s.getWifiOk with
  | false => simp
  | true =>
    cases hl : lookupKey (ssidKey i) s.wifi with
    | none => simp
    | some v =>
      simp only [if_pos rfl, Option.map_some]
      cases v <;> simp

theorem hasWifi_true_of_slot (s : Nvs) (i : Nat) (hwo : s.openWifiOk = true)
    (hgw : s.getWifiOk = true) (hi : i < 10) (hf : slotFilled s i = true) :
    HasWifiConfigInNvs s = true := by
  unfold HasWifiConfigInNvs
  rw [hwo, Bool.true_and, List.any_eq_true]
  exact ⟨i, List.mem_range.mpr hi, by rw [wifiPred_eq, hgw, hf]; rfl⟩

theorem hasWifi_false_of_empty (s : Nvs)
    (hw : ∀ i, i < 10 → slotFilled s i = false) :
    HasWifiConfigInNvs s = false := by
  unfold HasWifiConfigInNvs
  have hany : ((List.range 10).any fun i =>
      match wifiSlotLen s i with
      | some l => decide (0 < l)
      | none => false) = false := by
    rw [List.any_eq_false]
    intro i hi
    rw [wifiPred_eq, hw i (List.mem_range.mp hi)]
    simp
  rw [hany]
  simp

/-! ## Helper lemmas: the derivation paths -/

/-- The token `InitializeUdid` derives and attempts to persist when no
identifier could be read: the formatted hardware MAC when provisioned,
the formatted randomized candidate when not. -/
def derivedToken (s : Nvs) (mac : Mac) (r : Nat) : List Char :=
  if HasWifiConfigInNvs s then FormatMac mac else FormatMac (randomize mac r)

theorem derivedToken_is_format (s : Nvs) (mac : Mac) (r : Nat) :
    ∃ m2, derivedToken s mac r = FormatMac m2 := by
  unfold derivedToken
  split
  · exact ⟨mac, rfl⟩
  · exact ⟨randomize mac r, rfl⟩

theorem initUdid_fast (s : Nvs) (mac : Mac) (r : Nat) (u : List Char)
    (h : ReadUdidFromNvs s = some u) : InitializeUdid s mac r = (s, 0) := by
  unfold InitializeUdid
  rw [h]

theorem initUdid_derive_ok (s : Nvs) (mac : Mac) (r : Nat)
    (hr : ReadUdidFromNvs s = none) (hrw : s.openUdidRwOk = true)
    (hset : s.setUdidOk = true) :
    InitializeUdid s mac r =
      ({ s with udid := some (cString (derivedToken s mac r)) }, 1) := by
  unfold InitializeUdid derivedToken
  simp only [hr]
  by_cases hw : HasWifiConfigInNvs s = true
  · simp [if_pos hw, writeUdid_ok s _ hrw hset]
  · simp [if_neg hw, writeUdid_ok s _ hrw hset]

theorem initUdid_write_fail (s : Nvs) (mac : Mac) (r : Nat)
    (hr : ReadUdidFromNvs s = none)
    (hw : s.openUdidRwOk = false ∨ s.setUdidOk = false) :
    InitializeUdid s mac r = (s, 0) := by
  unfold InitializeUdid
  simp only [hr]
  by_cases hwifi : HasWifiConfigInNvs s = true
  · simp [if_pos hwifi, writeUdid_fail s _ hw]
  · simp [if_neg hwifi, writeUdid_fail s _ hw]

theorem initUdid_store_cases (s : Nvs) (mac : Mac) (r : Nat) :
    (InitializeUdid s mac r).1 = s ∨
      ∃ m2, (InitializeUdid s mac r).1 = { s with udid := some (cString (FormatMac m2)) } := by
  unfold InitializeUdid
  cases hr : ReadUdidFromNvs s with
  | some u => left; rfl
  | none =>
    simp only
    by_cases hwifi : HasWifiConfigInNvs s = true
    · simp only [if_pos hwifi]
      rcases writeUdid_store_cases s (FormatMac mac) with h | h
      · left; exact h
      · right; exact ⟨mac, h⟩
    · simp only [if_neg hwifi]
      rcases writeUdid_store_cases s (FormatMac (randomize mac r)) with h | h
      · left; exact h
      · right; exact ⟨randomize mac r, h⟩

theorem getMac_fast (s : Nvs) (mac : Mac) (r : Nat) (u : List Char)
    (h : ReadUdidFromNvs s = some u) : GetMacAddress s mac r = (u, s, 0) := by
  unfold GetMacAddress
  rw [h]

theorem readUdid_set_store (s : Nvs) (m2 : Mac)
    (hro : s.openUdidRoOk = true) (hlen : s.getUdidLenOk = true)
    (hdata : s.getUdidDataOk = true) :
    ReadUdidFromNvs { s with udid := some (cString (FormatMac m2)) } =
      some (FormatMac m2) := by
  have h := readUdid_some_store { s with udid := some (cString (FormatMac m2)) }
      (cString (FormatMac m2)) hro hlen hdata rfl (cString_length_ne _)
  rw [h, strip_cString _ (mem_formatMac_ne_nul m2)]

theorem getMac_derive_ok (s : Nvs) (mac : Mac) (r : Nat) (h : allOk s)
    (hr : ReadUdidFromNvs s = none) :
    GetMacAddress s mac r =
      (derivedToken s mac r,
       { s with udid := some (cString (derivedToken s mac r)) }, 1) := by
  obtain ⟨h1, h2, h3, h4, h5, h6, h7⟩ := h
  unfold GetMacAddress
  simp only [hr, initUdid_derive_ok s mac r hr h2 h7]
  obtain ⟨m2, hm2⟩ := derivedToken_is_format s mac r
  rw [hm2]
  simp only [readUdid_set_store s m2 h1 h4 h5]

theorem readFlagsFail_none (s : Nvs)
    (h : s.openUdidRoOk = false ∨ s.getUdidLenOk = false ∨ s.getUdidDataOk = false) :
    ReadUdidFromNvs s = none := by
  unfold ReadUdidFromNvs
  by_cases hro : s.openUdidRoOk = true
  · rw [if_pos hro]
    cases hu : s.udid with
    | none => rfl
    | some v =>
      rcases h with h | h | h
      · simp [hro] at h
      · simp [h]
      · simp [h]
  · rw [if_neg hro]

/-! ## Claims about the UDID manager -/

/-- The hardware address `AA:BB:CC:DD:EE:FF` used by the spec's examples. -/
def macAA : Mac := ⟨0xaa, 0xbb, 0xcc, 0xdd, 0xee, 0xff⟩

/-- A store whose `device`/`udid` blob is a single NUL byte and whose
operations all succeed: stripping the trailing padding leaves the empty
string. -/
def nulPadStore : Nvs := ⟨some [nulChar], [], true, true, true, true, true, true, true⟩

/-- C1 counterexample: with a stored identifier consisting only of NUL
padding (and every store operation succeeding), `GetMacAddress` returns
the empty string, because `ReadUdidFromNvs` checks the length before
stripping and returns `true` with an empty value afterwards.  This
refutes the claim that a stored value that becomes empty after stripping
still results in a non-empty returned string. -/
theorem C1_counterexample : (GetMacAddress nulPadStore macAA 0).1 = [] := by decide

/-- C1, amended: `GetMacAddress` returns the empty string exactly when
the stored identifier reads back (successfully) as a value that strips to
empty; in every other situation — identifier absent, any store read or
write failure, or any derivation outcome — the returned string is
non-empty. -/
theorem C1_empty_iff_stored_nul_pad (s : Nvs) (mac : Mac) (r : Nat) :
    (GetMacAddress s mac r).1 = [] ↔ ReadUdidFromNvs s = some [] := by
  cases hr : ReadUdidFromNvs s with
  | some u =>
    rw [getMac_fast s mac r u hr]
    simp
  | none =>
    constructor
    · intro he
      exfalso
      unfold GetMacAddress at he
      simp only [hr] at he
      cases h2 : ReadUdidFromNvs (InitializeUdid s mac r).1 with
      | none => simp only [h2] at he; exact formatMac_ne_nil mac he
      | some u =>
        simp only [h2] at he
        rcases initUdid_store_cases s mac r with hc | ⟨m2, hc⟩
        · rw [hc, hr] at h2; exact Option.noConfusion h2
        · rw [hc] at h2
          rcases readUdid_cases _ u h2 with ⟨w, hw, hu⟩
          have hw2 : cString (FormatMac m2) = w := Option.some.inj hw
          rw [← hw2, strip_cString _ (mem_formatMac_ne_nul m2)] at hu
          rw [hu] at he
          exact formatMac_ne_nil m2 he
    · intro h
      exact Option.noConfusion h

/-- C2: with a store that succeeds on all operations, two successive
calls to `GetMacAddress` return the identical string (whatever random
values the two calls draw) and at most one persist occurs across both
calls. -/
theorem C2_idempotent (s : Nvs) (mac : Mac) (r1 r2 : Nat) (h : allOk s) :
    (GetMacAddress s mac r1).1 = (GetMacAddress (GetMacAddress s mac r1).2.1 mac r2).1 ∧
    (GetMacAddress s mac r1).2.2 + (GetMacAddress (GetMacAddress s mac r1).2.1 mac r2).2.2 ≤ 1 := by
  cases hr : ReadUdidFromNvs s with
  | some u =>
    rw [getMac_fast s mac r1 u hr]
    simp only
    rw [getMac_fast s mac r2 u hr]
    simp
  | none =>
    obtain ⟨m2, hm2⟩ := derivedToken_is_format s mac r1
    rw [getMac_derive_ok s mac r1 h hr, hm2]
    simp only
    rw [getMac_fast _ mac r2 (FormatMac m2)
      (readUdid_set_store s m2 h.1 h.2.2.2.1 h.2.2.2.2.1)]
    simp

/-- C3: if a non-empty identifier is already persisted (the stored blob
strips to a non-empty value) and the store operates normally, then both
`GetMacAddress` and `InitializeUdid` take the fast path: the store is
left unchanged, no persist occurs, and the read-back stored value is
returned. -/
theorem C3_fast_path (s : Nvs) (mac : Mac) (r : Nat) (v : List Char) (h : allOk s)
    (hu : s.udid = some v) (hv : stripTrailingNul v ≠ []) :
    GetMacAddress s mac r = (stripTrailingNul v, s, 0) ∧
    InitializeUdid s mac r = (s, 0) := by
  have hlen : v.length ≠ 0 := by
    intro h0
    rw [List.length_eq_zero] at h0
    rw [h0] at hv
    exact hv rfl
  have hr := readUdid_some_store s v h.1 h.2.2.2.1 h.2.2.2.2.1 hu hlen
  exact ⟨getMac_fast s mac r _ hr, initUdid_fast s mac r _ hr⟩

/-- C4: with no stored identifier, at least one non-empty wifi
credential slot (keys `ssid`, `ssid1`, ..., `ssid9`), hardware address
`AA:BB:CC:DD:EE:FF` and a normally operating store, the identifier
returned by `GetMacAddress` — and the one that now reads back from the
store — is the 17-character lowercase token `aa:bb:cc:dd:ee:ff`. -/
theorem C4_provisioned (s : Nvs) (r : Nat) (i : Nat) (h : allOk s)
    (hu : s.udid = none) (hi : i < 10) (hf : slotFilled s i = true) :
    (GetMacAddress s macAA r).1 = "aa:bb:cc:dd:ee:ff".toList ∧
    ReadUdidFromNvs (GetMacAddress s macAA r).2.1 = some ("aa:bb:cc:dd:ee:ff".toList) := by
  have hr := readUdid_of_udid_none s hu
  have hwifi := hasWifi_true_of_slot s i h.2.2.1 h.2.2.2.2.2.1 hi hf
  have htok : derivedToken s macAA r = FormatMac macAA := by
    unfold derivedToken
    rw [hwifi]
    simp
  have hfmt : FormatMac macAA = "aa:bb:cc:dd:ee:ff".toList := by decide
  rw [getMac_derive_ok s macAA r h hr, htok]
  constructor
  · simp only
    exact hfmt
  · simp only
    rw [readUdid_set_store s macAA h.1 h.2.2.2.1 h.2.2.2.2.1, hfmt]

/-- C5: with no stored identifier, no non-empty wifi credential slot,
hardware address `AA:BB:CC:DD:EE:FF` and a normally operating store,
`InitializeUdid` persists exactly once, and the persisted identifier
reads back as the formatted MAC whose first three bytes are bits 0-7,
8-15 and 16-23 of the random draw `r` and whose last three byte-groups
stay `dd:ee:ff`. -/
theorem C5_randomized (s : Nvs) (r : Nat) (h : allOk s) (hu : s.udid = none)
    (hw : ∀ i, i < 10 → slotFilled s i = false) :
    (InitializeUdid s macAA r).2 = 1 ∧
    ReadUdidFromNvs (InitializeUdid s macAA r).1 =
      some (FormatMac ⟨r % 256, r / 256 % 256, r / 65536 % 256, 0xdd, 0xee, 0xff⟩) := by
  have hr := readUdid_of_udid_none s hu
  have hwifi := hasWifi_false_of_empty s hw
  have htok : derivedToken s macAA r = FormatMac (randomize macAA r) := by
    unfold derivedToken
    rw [hwifi]
    simp
  have hrand : randomize macAA r =
      ⟨r % 256, r / 256 % 256, r / 65536 % 256, 0xdd, 0xee, 0xff⟩ := rfl
  have hinit := initUdid_derive_ok s macAA r hr h.2.1 h.2.2.2.2.2.2
  rw [htok] at hinit
  rw [hinit]
  refine ⟨rfl, ?_⟩
  simp only
  rw [readUdid_set_store s (randomize macAA r) h.1 h.2.2.2.1 h.2.2.2.2.1, hrand]

/-- A store with no identifier, reads failing (`nvs_open` read-only
fails) but writes working: the C6/C10 failure-injection scenario in
which the confirming re-read fails while the persist succeeds. -/
def readBrokenStore : Nvs := ⟨none, [], false, true, true, true, true, true, true⟩

/-- C6 counterexample: on a store whose reads fail but whose writes
work, the call falls back to the raw hardware token, yet a persist DID
occur (the derived value was cached in the store), and a subsequent call
with a fully repaired store returns that remembered value
(`00:00:00:dd:ee:ff`, from the failed call's random draw 0) without
re-deriving (it draws 7, which would give `07:00:00:dd:ee:ff`, and
performs no persist).  This refutes the claim that nothing is cached and
that a later call re-runs the derivation. -/
theorem C6_counterexample :
    (GetMacAddress readBrokenStore macAA 0).1 = "aa:bb:cc:dd:ee:ff".toList ∧
    (GetMacAddress readBrokenStore macAA 0).2.2 = 1 ∧
    (GetMacAddress (setFlagsOk (GetMacAddress readBrokenStore macAA 0).2.1) macAA 7).1 =
      "00:00:00:dd:ee:ff".toList ∧
    (GetMacAddress (setFlagsOk (GetMacAddress readBrokenStore macAA 0).2.1) macAA 7).2.2 = 0 := by
  decide

/-- C6, amended: if the persist itself fails (write-side failure), then
`GetMacAddress` returns the well-formed token formatted from the freshly
read hardware address, nothing is cached in memory or in the store (the
store is returned unchanged, zero persists), and a subsequent call with
a now-working store re-runs the derivation and persists.  (If instead
only the confirming re-read fails, the derived value may still have been
persisted and a later call returns it — see the counterexample.) -/
theorem C6_write_failure_fallback (s : Nvs) (mac : Mac) (r r2 : Nat)
    (hu : s.udid = none) (hw : s.openUdidRwOk = false ∨ s.setUdidOk = false) :
    GetMacAddress s mac r = (FormatMac mac, s, 0) ∧
    (GetMacAddress (setFlagsOk s) mac r2).2.2 = 1 := by
  have hr := readUdid_of_udid_none s hu
  have hinit := initUdid_write_fail s mac r hr hw
  constructor
  · unfold GetMacAddress
    simp only [hr, hinit]
  · have hr2 := readUdid_of_udid_none (setFlagsOk s) hu
    have hall : allOk (setFlagsOk s) := ⟨rfl, rfl, rfl, rfl, rfl, rfl, rfl⟩
    rw [getMac_derive_ok (setFlagsOk s) mac r2 hall hr2]

/-- C10: with no stored identifier and no non-empty wifi credential slot
(the unprovisioned path) and any failure of the persist or of the
confirming re-read, `GetMacAddress` returns the token formatted from the
raw, unmodified hardware address — the randomized candidate is
discarded. -/
theorem C10_raw_mac_fallback (s : Nvs) (mac : Mac) (r : Nat) (hu : s.udid = none)
    (_hwifi : ∀ i, i < 10 → slotFilled s i = false)
    (hf : (s.openUdidRwOk = false ∨ s.setUdidOk = false) ∨
      (s.openUdidRoOk = false ∨ s.getUdidLenOk = false ∨ s.getUdidDataOk = false)) :
    (GetMacAddress s mac r).1 = FormatMac mac := by
  have hr := readUdid_of_udid_none s hu
  rcases hf with hwrite | hread
  · have hinit := initUdid_write_fail s mac r hr hwrite
    unfold GetMacAddress
    simp only [hr, hinit]
  · unfold GetMacAddress
    simp only [hr]
    cases h2 : ReadUdidFromNvs (InitializeUdid s mac r).1 with
    | none => simp only [h2]
    | some u =>
      exfalso
      rcases initUdid_store_cases s mac r with hc | ⟨m2, hc⟩
      · rw [hc, hr] at h2
        exact Option.noConfusion h2
      · rw [hc] at h2
        rw [readFlagsFail_none { s with udid := some (cString (FormatMac m2)) } hread] at h2
        exact Option.noConfusion h2

/-! ## Witness stores for the UDID claims -/

/-- Empty store (no identifier) with one filled wifi slot, all
operations succeeding. -/
def wProvStore : Nvs := ⟨none, [("ssid", ['a'])], true, true, true, true, true, true, true⟩

/-- Empty store (no identifier, no wifi slots), all operations
succeeding. -/
def wEmptyStore : Nvs := ⟨none, [], true, true, true, true, true, true, true⟩

/-- Store already holding the identifier blob `x` followed by NUL
padding, all operations succeeding. -/
def wStoredStore : Nvs := ⟨some ['x', nulChar], [], true, true, true, true, true, true, true⟩

/-- Empty store whose read-write open fails (persists cannot happen). -/
def wWriteFailStore : Nvs := ⟨none, [], true, false, true, true, true, true, true⟩

theorem C2_idempotent_witness :
    allOk wProvStore ∧
    ((GetMacAddress wProvStore macAA 1).1 =
        (GetMacAddress (GetMacAddress wProvStore macAA 1).2.1 macAA 2).1 ∧
      (GetMacAddress wProvStore macAA 1).2.2 +
        (GetMacAddress (GetMacAddress wProvStore macAA 1).2.1 macAA 2).2.2 ≤ 1) :=
  ⟨by decide, C2_idempotent wProvStore macAA 1 2 (by decide)⟩

theorem C3_fast_path_witness :
    (allOk wStoredStore ∧ wStoredStore.udid = some ['x', nulChar] ∧
      stripTrailingNul ['x', nulChar] ≠ []) ∧
    (GetMacAddress wStoredStore macAA 0 = (stripTrailingNul ['x', nulChar], wStoredStore, 0) ∧
      InitializeUdid wStoredStore macAA 0 = (wStoredStore, 0)) :=
  ⟨⟨by decide, by decide, by decide⟩,
    C3_fast_path wStoredStore macAA 0 ['x', nulChar] (by decide) (by decide) (by decide)⟩

theorem C4_provisioned_witness :
    (allOk wProvStore ∧ wProvStore.udid = none ∧ 0 < 10 ∧ slotFilled wProvStore 0 = true) ∧
    ((GetMacAddress wProvStore macAA 5).1 = "aa:bb:cc:dd:ee:ff".toList ∧
      ReadUdidFromNvs (GetMacAddress wProvStore macAA 5).2.1 =
        some ("aa:bb:cc:dd:ee:ff".toList)) :=
  ⟨⟨by decide, by decide, by decide, by decide⟩,
    C4_provisioned wProvStore 5 0 (by decide) (by decide) (by decide) (by decide)⟩

theorem C5_randomized_witness :
    (allOk wEmptyStore ∧ wEmptyStore.udid = none ∧
      (∀ i, i < 10 → slotFilled wEmptyStore i = false)) ∧
    ((InitializeUdid wEmptyStore macAA 1193046).2 = 1 ∧
      ReadUdidFromNvs (InitializeUdid wEmptyStore macAA 1193046).1 =
        some (FormatMac ⟨1193046 % 256, 1193046 / 256 % 256, 1193046 / 65536 % 256,
          0xdd, 0xee, 0xff⟩)) :=
  ⟨⟨by decide, by decide, by decide⟩,
    C5_randomized wEmptyStore 1193046 (by decide) (by decide) (by decide)⟩

theorem C6_write_failure_fallback_witness :
    (wWriteFailStore.udid = none ∧
      (wWriteFailStore.openUdidRwOk = false ∨ wWriteFailStore.setUdidOk = false)) ∧
    (GetMacAddress wWriteFailStore macAA 3 = (FormatMac macAA, wWriteFailStore, 0) ∧
      (GetMacAddress (setFlagsOk wWriteFailStore) macAA 4).2.2 = 1) :=
  ⟨⟨by decide, by decide⟩,
    C6_write_failure_fallback wWriteFailStore macAA 3 4 (by decide) (by decide)⟩

theorem C10_raw_mac_fallback_witness :
    (wWriteFailStore.udid = none ∧
      (∀ i, i < 10 → slotFilled wWriteFailStore i = false) ∧
      ((wWriteFailStore.openUdidRwOk = false ∨ wWriteFailStore.setUdidOk = false) ∨
        (wWriteFailStore.openUdidRoOk = false ∨ wWriteFailStore.getUdidLenOk = false ∨
          wWriteFailStore.getUdidDataOk = false))) ∧
    (GetMacAddress wWriteFailStore macAA 9).1 = FormatMac macAA :=
  ⟨⟨by decide, by decide, by decide⟩,
    C10_raw_mac_fallback wWriteFailStore macAA 9 (by decide) (by decide) (by decide)⟩

/-! ## Claims about the CPU usage sampler -/

/-- C7: the sampler fails with `noMem` exactly when an allocation it
performs fails (the start-buffer allocation, or the end-buffer
allocation once the first capture succeeded), with `invalidSize` exactly
when a capture it performs returns a count of zero, with `invalidState`
exactly when both captures succeed and the unsigned 32-bit difference of
the two global run-time counter readings is zero, and returns `ok` in
every other case; these four are the only possible results. -/
theorem C7_error_cases (aS aE : Bool) (sn en : List TaskStat) (srt ert cores : Nat) :
    ((PrintTaskCpuUsage aS sn srt aE en ert cores).1 = EspErr.noMem ↔
      (aS = false ∨ (aS = true ∧ sn ≠ [] ∧ aE = false))) ∧
    ((PrintTaskCpuUsage aS sn srt aE en ert cores).1 = EspErr.invalidSize ↔
      ((aS = true ∧ sn = []) ∨ (aS = true ∧ sn ≠ [] ∧ aE = true ∧ en = []))) ∧
    ((PrintTaskCpuUsage aS sn srt aE en ert cores).1 = EspErr.invalidState ↔
      (aS = true ∧ sn ≠ [] ∧ aE = true ∧ en ≠ [] ∧ sub32 ert srt = 0)) ∧
    ((PrintTaskCpuUsage aS sn srt aE en ert cores).1 = EspErr.ok ↔
      (aS = true ∧ sn ≠ [] ∧ aE = true ∧ en ≠ [] ∧ sub32 ert srt ≠ 0)) := by
  cases aS <;> cases aE <;>
    by_cases hsn : sn = [] <;> by_cases hen : en = [] <;>
      by_cases hel : sub32 ert srt = 0 <;>
        simp [PrintTaskCpuUsage, hsn, hen, hel]

theorem matchTasks_pct (d : Nat) (ss es : List Slot) (name : String) (te pct : Nat)
    (h : TaskRecord.matched name te pct ∈ (matchTasks d ss es).1) :
    pct = mul32 te 100 / d := by
  induction ss generalizing es with
  | nil => simp [matchTasks] at h
  | cons s ss ih =>
    unfold matchTasks at h
    cases hc : consume s.1 es with
    | none =>
      simp only [hc] at h
      exact ih es h
    | some pr =>
      obtain ⟨e, es2⟩ := pr
      simp only [hc, List.mem_cons, TaskRecord.matched.injEq] at h
      rcases h with ⟨h1, h2, h3⟩ | h
      · rw [h3, h2]
      · exact ih es2 h

/-- Snapshot A of the spec's synthetic sampler example. -/
def snapA : List TaskStat := [⟨1, "task1", 100⟩, ⟨2, "task2", 50⟩]

/-- Snapshot B of the spec's synthetic sampler example. -/
def snapB : List TaskStat := [⟨1, "task1", 150⟩, ⟨2, "task2", 90⟩, ⟨3, "task3", 10⟩]

/-- C8: every matched record the sampler emits carries the percentage
`task_elapsed * 100 / (elapsed * core_count)` in truncating unsigned
32-bit arithmetic; and on the spec's synthetic example (elapsed 60, one
core) task1 yields run time 50 at 83 percent, task2 yields 40 at 66
percent, task3 is reported created, and no task is reported deleted. -/
theorem C8_percentage (aS aE : Bool) (sn en : List TaskStat) (srt ert cores : Nat)
    (name : String) (te pct : Nat)
    (h : TaskRecord.matched name te pct ∈ (PrintTaskCpuUsage aS sn srt aE en ert cores).2) :
    pct = mul32 te 100 / mul32 (sub32 ert srt) cores ∧
    PrintTaskCpuUsage true snapA 0 true snapB 60 1 =
      (EspErr.ok, [TaskRecord.matched "task1" 50 83, TaskRecord.matched "task2" 40 66,
        TaskRecord.created "task3"]) := by
  refine ⟨?_, by decide⟩
  unfold PrintTaskCpuUsage at h
  split_ifs at h with h1 h2 h3 h4 h5
  · simp at h
  · simp at h
  · simp at h
  · simp at h
  · simp at h
  · simp only [List.mem_append] at h
    rcases h with (h | h) | h
    · exact matchTasks_pct _ _ _ _ _ _ h
    · exfalso
      rcases List.mem_map.mp h with ⟨p, _, hp⟩
      exact TaskRecord.noConfusion hp
    · exfalso
      rcases List.mem_map.mp h with ⟨p, _, hp⟩
      exact TaskRecord.noConfusion hp

theorem consume_countP (h0 : Nat) (es es2 : List Slot) (e : TaskStat)
    (hc : consume (some h0) es = some (e, es2)) :
    (es.countP fun p => p.1.isSome) = (es2.countP fun p => p.1.isSome) + 1 := by
  induction es generalizing es2 with
  | nil => simp [consume] at hc
  | cons a es ih =>
    unfold consume at hc
    by_cases ha : a.1 = some h0
    · rw [if_pos ha] at hc
      cases hc
      simp [List.countP_cons, ha]
    · rw [if_neg ha] at hc
      cases hc2 : consume (some h0) es with
      | none => rw [hc2] at hc; exact Option.noConfusion hc
      | some pr =>
        obtain ⟨t, es3⟩ := pr
        rw [hc2] at hc
        cases hc
        have hrec := ih es3 hc2
        simp only [List.countP_cons]
        omega

theorem matchTasks_all_matched (d : Nat) (ss : List Slot) : ∀ es : List Slot,
    ∀ rec ∈ (matchTasks d ss es).1, rec.isMatched = true := by
  induction ss with
  | nil => intro es rec h; simp [matchTasks] at h
  | cons s ss ih =>
    intro es rec h
    unfold matchTasks at h
    cases hc : consume s.1 es with
    | none =>
      simp only [hc] at h
      exact ih es rec h
    | some pr =>
      obtain ⟨e, es2⟩ := pr
      simp only [hc, List.mem_cons] at h
      rcases h with h | h
      · rw [h]; rfl
      · exact ih es2 rec h

theorem matchTasks_inv (d : Nat) (ss : List Slot) : ∀ es : List Slot,
    (∀ p ∈ ss, p.1.isSome = true) →
    (matchTasks d ss es).1.length +
        ((matchTasks d ss es).2.1.countP fun p => p.1.isSome) = ss.length ∧
    ((matchTasks d ss es).2.2.countP fun p => p.1.isSome) +
        (matchTasks d ss es).1.length = es.countP fun p => p.1.isSome := by
  induction ss with
  | nil =>
    intro es hss
    simp [matchTasks]
  | cons s ss ih =>
    intro es hss
    have hs : s.1.isSome = true := hss s (by simp)
    have hss2 : ∀ p ∈ ss, p.1.isSome = true := fun p hp => hss p (by simp [hp])
    obtain ⟨h0, hh0⟩ := Option.isSome_iff_exists.mp hs
    unfold matchTasks
    cases hc : consume s.1 es with
    | none =>
      obtain ⟨i1, i2⟩ := ih es hss2
      constructor
      · simp [List.countP_cons, hs]
        omega
      · simp [List.countP_cons]
        omega
    | some pr =>
      obtain ⟨e, es2⟩ := pr
      rw [hh0] at hc
      have hcount := consume_countP h0 es es2 e hc
      obtain ⟨i1, i2⟩ := ih es2 hss2
      constructor
      · simp [List.countP_cons]
        omega
      · simp [List.countP_cons]
        omega

theorem countP_del_matched (l : List Slot) :
    (((l.filter fun p => p.1.isSome).map fun p =>
      TaskRecord.deleted p.2.pcTaskName).countP TaskRecord.isMatched) = 0 := by
  rw [List.countP_map]
  exact List.countP_eq_zero.mpr fun a _ => by simp [Function.comp, TaskRecord.isMatched]

theorem countP_del_deleted (l : List Slot) :
    (((l.filter fun p => p.1.isSome).map fun p =>
      TaskRecord.deleted p.2.pcTaskName).countP TaskRecord.isDeleted) =
    l.countP fun p => p.1.isSome := by
  rw [List.countP_map]
  have h1 : List.countP (TaskRecord.isDeleted ∘ fun p : Slot =>
      TaskRecord.deleted p.2.pcTaskName) (l.filter fun p => p.1.isSome) =
      (l.filter fun p => p.1.isSome).length :=
    List.countP_eq_length.mpr fun a _ => rfl
  rw [h1, ← List.countP_eq_length_filter]

theorem countP_del_created (l : List Slot) :
    (((l.filter fun p => p.1.isSome).map fun p =>
      TaskRecord.deleted p.2.pcTaskName).countP TaskRecord.isCreated) = 0 := by
  rw [List.countP_map]
  exact List.countP_eq_zero.mpr fun a _ => by simp [Function.comp, TaskRecord.isCreated]

theorem countP_cre_matched (l : List Slot) :
    (((l.filter fun p => p.1.isSome).map fun p =>
      TaskRecord.created p.2.pcTaskName).countP TaskRecord.isMatched) = 0 := by
  rw [List.countP_map]
  exact List.countP_eq_zero.mpr fun a _ => by simp [Function.comp, TaskRecord.isMatched]

theorem countP_cre_deleted (l : List Slot) :
    (((l.filter fun p => p.1.isSome).map fun p =>
      TaskRecord.created p.2.pcTaskName).countP TaskRecord.isDeleted) = 0 := by
  rw [List.countP_map]
  exact List.countP_eq_zero.mpr fun a _ => by simp [Function.comp, TaskRecord.isDeleted]

theorem countP_cre_created (l : List Slot) :
    (((l.filter fun p => p.1.isSome).map fun p =>
      TaskRecord.created p.2.pcTaskName).countP TaskRecord.isCreated) =
    l.countP fun p => p.1.isSome := by
  rw [List.countP_map]
  have h1 : List.countP (TaskRecord.isCreated ∘ fun p : Slot =>
      TaskRecord.created p.2.pcTaskName) (l.filter fun p => p.1.isSome) =
      (l.filter fun p => p.1.isSome).length :=
    List.countP_eq_length.mpr fun a _ => rfl
  rw [h1, ← List.countP_eq_length_filter]

theorem recs_countP_deleted (recs : List TaskRecord)
    (h : ∀ rec ∈ recs, rec.isMatched = true) :
    recs.countP TaskRecord.isDeleted = 0 :=
  List.countP_eq_zero.mpr fun a ha => by
    have := h a ha
    cases a <;> simp_all [TaskRecord.isMatched, TaskRecord.isDeleted]

theorem recs_countP_created (recs : List TaskRecord)
    (h : ∀ rec ∈ recs, rec.isMatched = true) :
    recs.countP TaskRecord.isCreated = 0 :=
  List.countP_eq_zero.mpr fun a ha => by
    have := h a ha
    cases a <;> simp_all [TaskRecord.isMatched, TaskRecord.isCreated]

/-- C9: on a successful run (allocations succeed, captures are
non-empty, the window is non-degenerate), the emitted records partition
both snapshots: the matched records plus the deleted-tagged records
count exactly the snapshot-A entries (each A entry is matched or
reported deleted exactly once), and the matched records plus the
created-tagged records count exactly the snapshot-B entries (each B
entry is consumed by at most one A entry, and otherwise reported created
exactly once); a record carries either a percentage or a tag, never
both, by construction of the record kinds. -/
theorem C9_matching_partition (sn en : List TaskStat) (srt ert cores : Nat)
    (h : (PrintTaskCpuUsage true sn srt true en ert cores).1 = EspErr.ok) :
    ((PrintTaskCpuUsage true sn srt true en ert cores).2.countP TaskRecord.isMatched +
      (PrintTaskCpuUsage true sn srt true en ert cores).2.countP TaskRecord.isDeleted
        = sn.length) ∧
    ((PrintTaskCpuUsage true sn srt true en ert cores).2.countP TaskRecord.isMatched +
      (PrintTaskCpuUsage true sn srt true en ert cores).2.countP TaskRecord.isCreated
        = en.length) := by
  by_cases hsn : sn = []
  · exfalso
    unfold PrintTaskCpuUsage at h
    simp [hsn] at h
  by_cases hen : en = []
  · exfalso
    unfold PrintTaskCpuUsage at h
    simp [hsn, hen] at h
  by_cases hel : sub32 ert srt = 0
  · exfalso
    unfold PrintTaskCpuUsage at h
    simp [hsn, hen, hel] at h
  · have e1 : ¬(true = false) := by simp
    unfold PrintTaskCpuUsage
    rw [if_neg e1, if_neg hsn, if_neg e1, if_neg hen, if_neg hel]
    have hssA : ∀ p ∈ (sn.map fun t => (some t.xHandle, t)),
        (Prod.fst p).isSome = true := by
      intro p hp
      rcases List.mem_map.mp hp with ⟨t, _, ht⟩
      rw [← ht]
      rfl
    have hssB : ∀ p ∈ (en.map fun t => (some t.xHandle, t)),
        (Prod.fst p).isSome = true := by
      intro p hp
      rcases List.mem_map.mp hp with ⟨t, _, ht⟩
      rw [← ht]
      rfl
    obtain ⟨i1, i2⟩ := matchTasks_inv (mul32 (sub32 ert srt) cores)
      (sn.map fun t => (some t.xHandle, t)) (en.map fun t => (some t.xHandle, t)) hssA
    have hall := matchTasks_all_matched (mul32 (sub32 ert srt) cores)
      (sn.map fun t => (some t.xHandle, t)) (en.map fun t => (some t.xHandle, t))
    have hm := List.countP_eq_length.mpr hall
    have hd := recs_countP_deleted _ hall
    have hcr := recs_countP_created _ hall
    have hlenA : (sn.map fun t => ((some t.xHandle : Option Nat), t)).length = sn.length :=
      List.length_map _ _
    have hcountB : ((en.map fun t => ((some t.xHandle : Option Nat), t)).countP
        fun p => p.1.isSome) = en.length := by
      rw [List.countP_eq_length.mpr hssB, List.length_map]
    simp only [List.countP_append, hm, hd, hcr, countP_del_matched, countP_del_deleted,
      countP_del_created, countP_cre_matched, countP_cre_deleted, countP_cre_created]
    rw [hlenA] at i1
    rw [hcountB] at i2
    omega

theorem C8_percentage_witness :
    (TaskRecord.matched "task1" 50 83 ∈ (PrintTaskCpuUsage true snapA 0 true snapB 60 1).2) ∧
    (83 = mul32 50 100 / mul32 (sub32 60 0) 1 ∧
      PrintTaskCpuUsage true snapA 0 true snapB 60 1 =
        (EspErr.ok, [TaskRecord.matched "task1" 50 83, TaskRecord.matched "task2" 40 66,
          TaskRecord.created "task3"])) :=
  ⟨by decide, C8_percentage true true snapA snapB 0 60 1 "task1" 50 83 (by decide)⟩

theorem C9_matching_partition_witness :
    ((PrintTaskCpuUsage true snapA 0 true snapB 60 1).1 = EspErr.ok) ∧
    (((PrintTaskCpuUsage true snapA 0 true snapB 60 1).2.countP TaskRecord.isMatched +
        (PrintTaskCpuUsage true snapA 0 true snapB 60 1).2.countP TaskRecord.isDeleted
          = snapA.length) ∧
      ((PrintTaskCpuUsage true snapA 0 true snapB 60 1).2.countP TaskRecord.isMatched +
        (PrintTaskCpuUsage true snapA 0 true snapB 60 1).2.countP TaskRecord.isCreated
          = snapB.length)) :=
  ⟨by decide, C9_matching_partition snapA snapB 0 60 1 (by decide)⟩
